import Mathlib

/-!
Shallow embedding of the qr-gen-ogm repository (src/app.py and
src/validation.py) and proofs about the claims of its specification.

Strings are modelled as `List Char`; Python's `Decimal` amount (which the
spec fixes to exactly two fraction digits) is modelled as an integer number
of cents.  Fallible code (`raise ValueError`) is modelled with `Except`.
-/

/-- Decimal digit character, `chr(48 + n)` for `n < 10`. -/
def digitChar (n : Nat) : Char := Char.ofNat (48 + n)

/-- Fuel-driven decimal rendering of a natural number (`str(n)` in Python).
The fuel argument only serves termination; `natChars` supplies enough. -/
def natCharsAux : Nat → Nat → List Char
  | 0, _ => []
  | fuel + 1, n =>
    if n < 10 then [digitChar n]
    else natCharsAux fuel (n / 10) ++ [digitChar (n % 10)]

/-- Decimal rendering `str(n)` of a natural number `n`. -/
def natChars (n : Nat) : List Char := natCharsAux (n + 1) n

/-- The numeric value of a decimal digit string, `int(s)` in Python
(with `int("") = 0`, a case never reached by the code under its guards). -/
def digitsToNat (l : List Char) : Nat :=
  l.foldl (fun a c => a * 10 + (c.toNat - 48)) 0

/-- Python whitespace characters stripped by `str.strip()`. -/
def pySpace (c : Char) : Bool :=
  c = ' ' || c = '\t' || c = '\n' || c = '\r' || c = Char.ofNat 11 || c = Char.ofNat 12

/-- Python `text.strip()`: remove whitespace at both ends. -/
def pyStrip (l : List Char) : List Char :=
  ((l.dropWhile pySpace).reverse.dropWhile pySpace).reverse

/-- A character kept by the sanitizer: `A`-`Z` or `0`-`9`. -/
def isUpperAlnum (c : Char) : Bool :=
  ('A' ≤ c && c ≤ 'Z') || ('0' ≤ c && c ≤ '9')

/-- Embeds `EuQrPayment._sanitize_alphanum`: uppercase, then keep only `A`-`Z`,
`0`-`9` (the substitution `re.sub` of anything else by nothing). -/
def sanitize_alphanum (l : List Char) : List Char :=
  if l = [] then [] else (l.map Char.toUpper).filter isUpperAlnum

/-- Embeds `EuQrPayment._sanitize_text`: strip whitespace, truncate to `maxLen`. -/
def sanitize_text (l : List Char) (maxLen : Nat) : List Char :=
  if l = [] then [] else (pyStrip l).take maxLen

/-- The structural regex `^[A-Z]{2}\d{2}[A-Z0-9]{1,30}$` of `validate_iban`. -/
def ibanRegex (l : List Char) : Bool :=
  match l with
  | a :: b :: c :: d :: rest =>
    ('A' ≤ a && a ≤ 'Z') && ('A' ≤ b && b ≤ 'Z') && c.isDigit && d.isDigit
      && decide (1 ≤ rest.length) && decide (rest.length ≤ 30) && rest.all isUpperAlnum
  | _ => false

/-- One character of the letter-to-number substitution: a digit stays, any
other character becomes `str(ord(c) - 55)` (so `A` ↦ `10`, …, `Z` ↦ `35`). -/
def charToDigits (c : Char) : List Char :=
  if c.isDigit then [c] else natChars (c.toNat - 55)

/-- The digit string of `validate_iban`: move the first 4 characters to the
end, then substitute letters by numbers. -/
def numericIban (l : List Char) : List Char :=
  ((l.drop 4 ++ l.take 4).map charToDigits).flatten

/-- Embeds `EuQrPayment.validate_iban` on the stored (sanitized) IBAN. -/
def validate_iban (iban : List Char) : Bool :=
  if iban = [] then false
  else if !ibanRegex iban then false
  else digitsToNat (numericIban iban) % 97 == 1

/-- Left-pad a character list with `'0'` to width `w` (`str.zfill(w)`, and the
`:02d` format used for the OGM check digits). -/
def zfillChars (w : Nat) (l : List Char) : List Char :=
  List.replicate (w - l.length) '0' ++ l

/-- The three `ValueError`s `get_qr_string` can raise. -/
inductive QrError
  | beneficiaryNameRequired
  | bothReferenceAndRemittance
  | creditorRefNotRF
deriving DecidableEq, Repr

/-- The stored fields of an `EuQrPayment` instance.  `amount` (a Python
`Decimal` with two fraction digits) is the integer number of cents. -/
structure Payment where
  iban : List Char
  bic : List Char
  beneficiary_name : List Char
  amount : Int
  currency : List Char
  purpose : List Char
  remittance_text : List Char
  creditor_reference : List Char
  information : List Char
  version : List Char
  char_set : List Char
deriving DecidableEq, Repr

/-- A fresh `EuQrPayment(iban)`: the constructor's defaults. -/
def Payment.init (iban : List Char) : Payment :=
  { iban := sanitize_alphanum iban, bic := [], beneficiary_name := [], amount := 0,
    currency := "EUR".toList, purpose := [], remittance_text := [],
    creditor_reference := [], information := [], version := "002".toList,
    char_set := "1".toList }

/-- Formatting to exactly two decimals on a positive amount of `a` cents. -/
def fmt2dec (a : Int) : List Char :=
  natChars (a.toNat / 100) ++ '.' :: zfillChars 2 (natChars (a.toNat % 100))

/-- The amount field: `f"{currency}{amount:.2f}" if amount > 0 else ""`. -/
def amountStr (p : Payment) : List Char :=
  if 0 < p.amount then p.currency ++ fmt2dec p.amount else []

/-- Joining lines with the newline separator. -/
def joinNl : List (List Char) → List Char
  | [] => []
  | [x] => x
  | x :: xs => x ++ '\n' :: joinNl xs

/-- Python split at every newline, preserving empty pieces. -/
def splitNl : List Char → List (List Char)
  | [] => [[]]
  | c :: cs =>
    if c = '\n' then [] :: splitNl cs
    else
      match splitNl cs with
      | [] => [[c]]
      | l :: ls => (c :: l) :: ls

/-- Embeds `EuQrPayment.get_qr_string`: sanitize, validate, serialize. -/
def get_qr_string (p : Payment) : Except QrError (List Char) :=
  let final_iban := sanitize_alphanum p.iban
  let final_bic := sanitize_alphanum p.bic
  let final_name := sanitize_text p.beneficiary_name 70
  let final_creditor_ref := sanitize_alphanum p.creditor_reference
  let final_remittance := sanitize_text p.remittance_text 140
  let final_info := sanitize_text p.information 70
  if final_name = [] then .error .beneficiaryNameRequired
  else if final_remittance ≠ [] ∧ final_creditor_ref ≠ [] then
    .error .bothReferenceAndRemittance
  else if final_creditor_ref ≠ [] ∧ ¬ ("RF".toList.isPrefixOf final_creditor_ref) then
    .error .creditorRefNotRF
  else
    .ok (joinNl ["BCD".toList, p.version, p.char_set, "SCT".toList, final_bic,
      final_name, final_iban, amountStr p, p.purpose, final_creditor_ref,
      final_remittance, final_info])

/-- State-passing form of the `get_qr_string` method: the body binds only
locals (source lines 89–125 contain no assignment to `self`), so the
instance it runs on passes through unchanged. -/
def get_qr_stringS : StateM Payment (Except QrError (List Char)) := do
  let self ← get
  pure (get_qr_string self)

/-- The possible draws of `random.randint(1000000000, 9999999999)` used by
`generate_belgian_ogm` when no base is given: both bounds inclusive. -/
def ogmRandomDraw (r : Nat) : Prop :=
  1000000000 ≤ r ∧ r ≤ 9999999999

instance (r : Nat) : Decidable (ogmRandomDraw r) := by
  unfold ogmRandomDraw; infer_instance

/-- Embeds `generate_belgian_ogm`.  `base_num = none` is Python's `None`; the
`rand` argument is the value drawn by `random.randint` on the random branch
(`if not base_num` also sends the empty string there). -/
def generate_belgian_ogm (base_num : Option (List Char)) (rand : Nat) : List Char :=
  let base : List Char :=
    match base_num with
    | none => natChars rand
    | some s => if s = [] then natChars rand else s
  let digits := base.filter Char.isDigit
  let digits := if 10 < digits.length then digits.take 10 else zfillChars 10 digits
  let base_int := digitsToNat digits
  let m := base_int % 97
  let m := if m = 0 then 97 else m
  let check_digits := zfillChars 2 (natChars m)
  let full_digits := digits ++ check_digits
  "+++".toList ++ full_digits.take 3 ++ "/".toList ++ (full_digits.drop 3).take 4
    ++ "/".toList ++ (full_digits.drop 7).take 5 ++ "+++".toList

/-- The diagnostic messages printed by `validate_qr_string`, one constructor
per `print` that reports on the payload (banner lines are not modelled). -/
inductive Diag
  | elevenLineWarn
  | countFail (n : Nat) (ls : List (List Char))
  | countOk
  | headerFail (i : Nat) (expected got : List Char)
  | mandatoryFail (i : Nat) (nm : List Char)
  | exclusivityFail
  | ogmNote (i : Nat)
  | rfFail (i : Nat) (got : List Char)
  | fieldTrace (i : Nat) (shown : List Char)
deriving DecidableEq, Repr

/-- The field schema of `validate_qr_string`: display name and, for the
four header fields, the expected literal. -/
def schema : List (List Char × Option (List Char)) :=
  [("Service Tag".toList, some "BCD".toList),
   ("Version".toList, some "002".toList),
   ("Character Set".toList, some "1".toList),
   ("Identification".toList, some "SCT".toList),
   ("BIC".toList, none),
   ("Beneficiary Name".toList, none),
   ("IBAN".toList, none),
   ("Amount".toList, none),
   ("Purpose".toList, none),
   ("Creditor Reference".toList, none),
   ("Remittance Text".toList, none),
   ("Beneficiary Info".toList, none)]

/-- The loop body of the field phase after the header-constant check: the
mandatory-field check, the mutual-exclusivity, OGM and RF checks, and the
closing trace print.  Returns the diagnostics and whether the field kept
`is_valid` intact. -/
def checkFieldBody (lines : List (List Char)) (i : Nat) (nm value : List Char) :
    List Diag × Bool :=
  if (nm = "Beneficiary Name".toList ∨ nm = "IBAN".toList) ∧ value = [] then
    ([Diag.mandatoryFail i nm], false)
  else
    let d₁ := if i = 9 ∧ value ≠ [] ∧ pyStrip (lines.getD 10 []) ≠ [] then
      [Diag.exclusivityFail] else []
    let d₂ := if i = 10 ∧ "+++".toList.isPrefixOf value ∧ "+++".toList.isSuffixOf value then
      [Diag.ogmNote i] else []
    let d₃ := if i = 9 ∧ value ≠ [] ∧ ¬ ("RF".toList.isPrefixOf value) then
      [Diag.rfFail i value] else []
    (d₁ ++ d₂ ++ d₃ ++ [Diag.fieldTrace i (if value = [] then "[Empty]".toList else value)],
      d₁.isEmpty && d₃.isEmpty)

/-- One iteration of the field loop: strip the line, run the header-constant
check (whose failure `continue`s past everything else), then the body. -/
def checkField (lines : List (List Char)) (i : Nat) (nm : List Char)
    (expected : Option (List Char)) : List Diag × Bool :=
  let value := pyStrip (lines.getD i [])
  match expected with
  | some e =>
    if value ≠ e then ([Diag.headerFail i e value], false)
    else checkFieldBody lines i nm value
  | none => checkFieldBody lines i nm value

/-- The field loop over the schema, accumulating diagnostics and the
`is_valid` flag (which, once false, stays false). -/
def fieldLoop (lines : List (List Char)) :
    Nat → List (List Char × Option (List Char)) → List Diag × Bool
  | _, [] => ([], true)
  | i, (nm, e) :: rest =>
    let r := checkField lines i nm e
    let rs := fieldLoop lines (i + 1) rest
    (r.1 ++ rs.1, r.2 && rs.2)

/-- The whole field phase of `validate_qr_string`. -/
def fieldPhase (lines : List (List Char)) : List Diag × Bool :=
  fieldLoop lines 0 schema

/-- The 11-line fix-up: append an implied empty Information field. -/
def elevenFix (ls : List (List Char)) : List (List Char) :=
  if ls.length = 11 then ls ++ [[]] else ls

/-- Fuel-driven form of the trailing-empty-line loop
(`while len(lines) > 12 and lines[-1] == "": lines.pop()`). -/
def popExtraAux : Nat → List (List Char) → List (List Char)
  | 0, ls => ls
  | fuel + 1, ls =>
    if 12 < ls.length ∧ ls.getLast? = some [] then popExtraAux fuel ls.dropLast
    else ls

/-- The trailing-empty-line loop, with enough fuel to run to completion. -/
def popExtra (ls : List (List Char)) : List (List Char) :=
  popExtraAux ls.length ls

/-- The line list after the split and both fix-ups. -/
def normalizeLines (s : List Char) : List (List Char) :=
  popExtra (elevenFix (splitNl s))

/-- Embeds `validate_qr_string`: verdict plus the diagnostics trace. -/
def validate_qr_string (s : List Char) : Bool × List Diag :=
  let ls₀ := splitNl s
  let warn := if ls₀.length = 11 then [Diag.elevenLineWarn] else []
  let ls := normalizeLines s
  if ls.length ≠ 12 then (false, warn ++ [Diag.countFail ls.length ls])
  else
    let r := fieldPhase ls
    (r.2, warn ++ [Diag.countOk] ++ r.1)

/-- Modelled from the spec: `mod97Check(numericString)` is the digit-by-digit
modular reduction `acc = (acc*10 + digit) % 97` over a digit string, the form
the spec mandates so that no big-integer arithmetic is needed. -/
def mod97Check (ds : List Char) : Nat :=
  ds.foldl (fun acc c => (acc * 10 + (c.toNat - 48)) % 97) 0

/-- The payload of the repository's `test_mutual_exclusivity` unit test:
both a creditor reference and a remittance text are set. -/
def bothRefsPayload : Payment :=
  { Payment.init ("BE44001981860045".toList) with
      beneficiary_name := "Test".toList,
      creditor_reference := "RF18".toList,
      remittance_text := "Some text".toList }

/-- A payload meeting all of C1's premises (non-empty sanitized name, no
reference conflict, no malformed creditor reference) whose name contains an
interior newline and whose version and charset fields were reassigned. -/
def newlinePayload : Payment :=
  { iban := [], bic := [], beneficiary_name := "A\nB".toList, amount := 0,
    currency := "EUR".toList, purpose := [], remittance_text := [],
    creditor_reference := [], information := [], version := "007".toList,
    char_set := "2".toList }

/-- The payload of the repository's `test_payload_structure` unit test. -/
def structurePayload : Payment :=
  { Payment.init ("BE44001981860045".toList) with
      beneficiary_name := "Test Company".toList, amount := 10000,
      remittance_text := "Test Payment".toList }

/-- The negative-amount payload used to witness C10. -/
def negAmountPayload : Payment :=
  { Payment.init ("BE44001981860045".toList) with
      beneficiary_name := "Test".toList, amount := -500 }

/-- The 11-line sample payload from the bottom of `validation.py`. -/
def elevenSample : List Char :=
  "BCD\n002\n1\nSCT\nGEBABEBB\nBreutech Solutions\nBE44001981860045\nEUR1.00\nIVPT\n\n+++776/1504/73874+++".toList

/-- A 12-line payload whose first line fails the Service-Tag header check. -/
def badHeaderSample : List Char :=
  "XXX\n002\n1\nSCT\n\nName\nIBAN\n\n\n\n\n".toList

/-- Whether some informational field-trace diagnostic for field `i` occurs. -/
def hasTrace (i : Nat) (ds : List Diag) : Bool :=
  ds.any fun d =>
    match d with
    | Diag.fieldTrace j _ => j == i
    | _ => false

example : validate_iban ("BE44001981860045".toList) = true := by decide
example : validate_iban ("BE44001981860046".toList) = false := by decide
example : sanitize_alphanum ("BE44 0019 8186 0045".toList) = "BE44001981860045".toList := by
  decide
example : sanitize_alphanum ("GEBA BE BB".toList) = "GEBABEBB".toList := by decide

example : generate_belgian_ogm (some "5337367152".toList) 0 = "+++533/7367/15261+++".toList := by
  decide
example : generate_belgian_ogm (some "0000000000".toList) 0 = "+++000/0000/00097+++".toList := by
  decide
example : splitNl ("a\nb\n".toList) = ["a".toList, "b".toList, []] := by decide
example : joinNl ["a".toList, [], "b".toList] = "a\n\nb".toList := by decide

example :
    (validate_qr_string
      ("BCD\n002\n1\nSCT\nGEBABEBB\nBreutech Solutions\nBE44001981860045\nEUR1.00\nIVPT\n\n+++776/1504/73874+++".toList)).1
      = true := by decide

example :
    Diag.ogmNote 10 ∈ (validate_qr_string
      ("BCD\n002\n1\nSCT\nGEBABEBB\nBreutech Solutions\nBE44001981860045\nEUR1.00\nIVPT\n\n+++776/1504/73874+++".toList)).2 := by
  decide

example : (validate_qr_string ("BCD\n002".toList)) =
    (false, [Diag.countFail 2 ["BCD".toList, "002".toList]]) := by decide

theorem natCharsAux_congr (n : Nat) : ∀ f₁ f₂ : Nat, n < f₁ → n < f₂ →
    natCharsAux f₁ n = natCharsAux f₂ n := by
  induction n using Nat.strong_induction_on with
  | _ n ih =>
    intro f₁ f₂ h₁ h₂
    match f₁, f₂ with
    | g₁ + 1, g₂ + 1 =>
      simp only [natCharsAux]
      split
      · rfl
      · rename_i h
        rw [ih (n / 10) (Nat.div_lt_self (by omega) (by omega))
            g₁ g₂ (by omega) (by omega)]

theorem natChars_of_lt {n : Nat} (h : n < 10) : natChars n = [digitChar n] := by
  simp [natChars, natCharsAux, h]

theorem natChars_of_ge {n : Nat} (h : 10 ≤ n) :
    natChars n = natChars (n / 10) ++ [digitChar (n % 10)] := by
  have hn : ¬ n < 10 := by omega
  have hdiv : n / 10 < n := Nat.div_lt_self (by omega) (by omega)
  show natCharsAux (n + 1) n = natCharsAux (n / 10 + 1) (n / 10) ++ [digitChar (n % 10)]
  conv_lhs => rw [natCharsAux]
  rw [if_neg hn, natCharsAux_congr (n / 10) n (n / 10 + 1) (by omega) (by omega)]

theorem digitChar_isDigit {n : Nat} (h : n < 10) : (digitChar n).isDigit = true := by
  interval_cases n <;> decide

theorem digitChar_toNat {n : Nat} (h : n < 10) : (digitChar n).toNat = 48 + n := by
  interval_cases n <;> decide

theorem natChars_isDigit : ∀ n : Nat, ∀ c ∈ natChars n, c.isDigit = true := by
  intro n
  induction n using Nat.strong_induction_on with
  | _ n ih =>
    intro c hc
    by_cases h : n < 10
    · rw [natChars_of_lt h] at hc
      simp at hc
      exact hc ▸ digitChar_isDigit h
    · rw [natChars_of_ge (by omega)] at hc
      rcases List.mem_append.mp hc with h' | h'
      · exact ih (n / 10) (Nat.div_lt_self (by omega) (by omega)) c h'
      · simp at h'
        exact h' ▸ digitChar_isDigit (Nat.mod_lt n (by omega))

theorem digitsToNat_append_singleton (l : List Char) (c : Char) :
    digitsToNat (l ++ [c]) = digitsToNat l * 10 + (c.toNat - 48) := by
  simp [digitsToNat, List.foldl_append]

theorem digitsToNat_natChars : ∀ n : Nat, digitsToNat (natChars n) = n := by
  intro n
  induction n using Nat.strong_induction_on with
  | _ n ih =>
    by_cases h : n < 10
    · rw [natChars_of_lt h]
      simp [digitsToNat, digitChar_toNat h]
    · rw [natChars_of_ge (by omega), digitsToNat_append_singleton,
        ih (n / 10) (Nat.div_lt_self (by omega) (by omega)),
        digitChar_toNat (Nat.mod_lt n (by omega))]
      omega

theorem natChars_length : ∀ k n : Nat, 10 ^ k ≤ n → n < 10 ^ (k + 1) →
    (natChars n).length = k + 1 := by
  intro k
  induction k with
  | zero =>
    intro n h₁ h₂
    rw [natChars_of_lt (by simpa using h₂)]
    rfl
  | succ k ih =>
    intro n h₁ h₂
    have h10 : 10 ≤ n := by
      have hp := Nat.pow_le_pow_right (show 1 ≤ 10 by omega) (show 1 ≤ k + 1 by omega)
      simpa using le_trans hp h₁
    rw [natChars_of_ge h10]
    have hlo : 10 ^ k ≤ n / 10 := by
      rw [Nat.le_div_iff_mul_le (by omega)]
      calc 10 ^ k * 10 = 10 ^ (k + 1) := by ring
        _ ≤ n := h₁
    have hhi : n / 10 < 10 ^ (k + 1) := by
      rw [Nat.div_lt_iff_lt_mul (by omega)]
      calc n < 10 ^ (k + 2) := h₂
        _ = 10 ^ (k + 1) * 10 := by ring
    rw [List.length_append, ih (n / 10) hlo hhi]
    rfl

theorem splitNl_ne_nil (l : List Char) : splitNl l ≠ [] := by
  induction l with
  | nil => simp [splitNl]
  | cons c cs ih =>
    simp only [splitNl]
    split
    · simp
    · cases h : splitNl cs with
      | nil => simp
      | cons x xs => simp

theorem splitNl_of_no_newline {l : List Char} (h : '\n' ∉ l) : splitNl l = [l] := by
  induction l with
  | nil => rfl
  | cons c cs ih =>
    have hc : c ≠ '\n' := fun hh => h (hh ▸ List.mem_cons_self c cs)
    have hcs : '\n' ∉ cs := fun hh => h (List.mem_cons_of_mem c hh)
    simp only [splitNl, if_neg hc, ih hcs]

theorem splitNl_append_newline {a : List Char} (rest : List Char) (h : '\n' ∉ a) :
    splitNl (a ++ '\n' :: rest) = a :: splitNl rest := by
  induction a with
  | nil => simp [splitNl]
  | cons c cs ih =>
    have hc : c ≠ '\n' := fun hh => h (hh ▸ List.mem_cons_self c cs)
    have hcs : '\n' ∉ cs := fun hh => h (List.mem_cons_of_mem c hh)
    show splitNl (c :: (cs ++ '\n' :: rest)) = (c :: cs) :: splitNl rest
    simp only [splitNl, if_neg hc]
    rw [ih hcs]

theorem splitNl_joinNl : ∀ ls : List (List Char), ls ≠ [] →
    (∀ l ∈ ls, '\n' ∉ l) → splitNl (joinNl ls) = ls := by
  intro ls
  induction ls with
  | nil => intro h; exact absurd rfl h
  | cons x xs ih =>
    intro _ hmem
    cases xs with
    | nil => exact splitNl_of_no_newline (hmem x (by simp))
    | cons y ys =>
      show splitNl (x ++ '\n' :: joinNl (y :: ys)) = x :: y :: ys
      rw [splitNl_append_newline _ (hmem x (by simp))]
      rw [ih (by simp) (fun l hl => hmem l (List.mem_cons_of_mem x hl))]

theorem mem_sanitize_alphanum {c : Char} {l : List Char}
    (h : c ∈ sanitize_alphanum l) : isUpperAlnum c = true := by
  unfold sanitize_alphanum at h
  split at h
  · simp at h
  · exact (List.mem_filter.mp h).2

theorem isUpperAlnum_ne_newline {c : Char} (h : isUpperAlnum c = true) : c ≠ '\n' := by
  intro hc
  rw [hc] at h
  exact absurd h (by decide)

theorem sanitize_alphanum_no_newline (l : List Char) : '\n' ∉ sanitize_alphanum l :=
  fun h => isUpperAlnum_ne_newline (mem_sanitize_alphanum h) rfl

theorem natChars_no_newline (n : Nat) : '\n' ∉ natChars n := by
  intro h
  have := natChars_isDigit n '\n' h
  exact absurd this (by decide)

theorem fmt2dec_no_newline (a : Int) : '\n' ∉ fmt2dec a := by
  intro h
  unfold fmt2dec at h
  rcases List.mem_append.mp h with h' | h'
  · exact natChars_no_newline _ h'
  · rcases List.mem_cons.mp h' with h'' | h''
    · exact absurd h''.symm (by decide)
    · unfold zfillChars at h''
      rcases List.mem_append.mp h'' with h₃ | h₃
      · have := List.eq_of_mem_replicate h₃
        exact absurd this (by decide)
      · exact natChars_no_newline _ h₃

theorem amountStr_no_newline {p : Payment} (hcur : '\n' ∉ p.currency) :
    '\n' ∉ amountStr p := by
  unfold amountStr
  split
  · intro h
    rcases List.mem_append.mp h with h' | h'
    · exact hcur h'
    · exact fmt2dec_no_newline _ h'
  · simp

theorem popExtraAux_decomp : ∀ fuel : Nat, ∀ ls : List (List Char),
    ∃ k, ls = popExtraAux fuel ls ++ List.replicate k ([] : List Char) := by
  intro fuel
  induction fuel with
  | zero => intro ls; exact ⟨0, by simp [popExtraAux]⟩
  | succ fuel ih =>
    intro ls
    simp only [popExtraAux]
    split
    · rename_i hcond
      obtain ⟨k, hk⟩ := ih ls.dropLast
      refine ⟨k + 1, ?_⟩
      have hne : ls ≠ [] := by
        intro h
        rw [h] at hcond
        simp at hcond
      have hlast : ls.getLast hne = [] := by
        have := hcond.2
        rw [List.getLast?_eq_getLast ls hne] at this
        exact Option.some_injective _ this
      calc ls = ls.dropLast ++ [ls.getLast hne] := (List.dropLast_append_getLast hne).symm
        _ = (popExtraAux fuel ls.dropLast ++ List.replicate k []) ++ [[]] := by
            rw [hlast, ← hk]
        _ = popExtraAux fuel ls.dropLast ++ List.replicate (k + 1) [] := by
            rw [List.append_assoc, List.replicate_succ']
    · exact ⟨0, by simp⟩

theorem popExtraAux_length_ge : ∀ fuel : Nat, ∀ ls : List (List Char),
    12 ≤ ls.length → 12 ≤ (popExtraAux fuel ls).length := by
  intro fuel
  induction fuel with
  | zero => intro ls h; simpa [popExtraAux] using h
  | succ fuel ih =>
    intro ls h
    simp only [popExtraAux]
    split
    · rename_i hcond
      exact ih ls.dropLast (by rw [List.length_dropLast]; omega)
    · exact h

theorem popExtraAux_stop : ∀ fuel : Nat, ∀ ls : List (List Char), ls.length ≤ fuel →
    ¬ (12 < (popExtraAux fuel ls).length ∧ (popExtraAux fuel ls).getLast? = some []) := by
  intro fuel
  induction fuel with
  | zero =>
    intro ls h
    have : ls = [] := List.length_eq_zero.mp (by omega)
    subst this
    simp [popExtraAux]
  | succ fuel ih =>
    intro ls h
    simp only [popExtraAux]
    split
    · rename_i hcond
      exact ih ls.dropLast (by rw [List.length_dropLast]; omega)
    · rename_i hcond
      exact hcond

theorem popExtraAux_of_le_12 : ∀ fuel : Nat, ∀ ls : List (List Char),
    ls.length ≤ 12 → popExtraAux fuel ls = ls := by
  intro fuel ls h
  cases fuel with
  | zero => rfl
  | succ fuel =>
    simp only [popExtraAux]
    rw [if_neg]
    intro hcond
    omega

theorem popExtra_decomp (ls : List (List Char)) :
    ∃ k, ls = popExtra ls ++ List.replicate k ([] : List Char) :=
  popExtraAux_decomp ls.length ls

theorem popExtra_length_ge (ls : List (List Char)) (h : 12 ≤ ls.length) :
    12 ≤ (popExtra ls).length :=
  popExtraAux_length_ge ls.length ls h

theorem popExtra_stop (ls : List (List Char)) :
    ¬ (12 < (popExtra ls).length ∧ (popExtra ls).getLast? = some []) :=
  popExtraAux_stop ls.length ls le_rfl

theorem popExtra_of_le_12 {ls : List (List Char)} (h : ls.length ≤ 12) :
    popExtra ls = ls :=
  popExtraAux_of_le_12 ls.length ls h

theorem foldl_val_mod_congr (ds : List Char) : ∀ a b : Nat, a % 97 = b % 97 →
    (ds.foldl (fun x c => x * 10 + (c.toNat - 48)) a) % 97
      = (ds.foldl (fun x c => x * 10 + (c.toNat - 48)) b) % 97 := by
  induction ds with
  | nil => intro a b h; simpa using h
  | cons c cs ih =>
    intro a b h
    simp only [List.foldl_cons]
    exact ih _ _ (by omega)

theorem mod97Check_foldl (ds : List Char) : ∀ a : Nat, a < 97 →
    ds.foldl (fun acc c => (acc * 10 + (c.toNat - 48)) % 97) a
      = (ds.foldl (fun x c => x * 10 + (c.toNat - 48)) a) % 97 := by
  induction ds with
  | nil => intro a ha; simp [Nat.mod_eq_of_lt ha]
  | cons c cs ih =>
    intro a ha
    simp only [List.foldl_cons]
    rw [ih _ (Nat.mod_lt _ (by omega))]
    exact foldl_val_mod_congr cs _ _ (by omega)

theorem ibanRegex_ne_nil {s : List Char} (h : ibanRegex s = true) : s ≠ [] := by
  intro hs
  subst hs
  simp [ibanRegex] at h

/-- C8: the digit-by-digit modular reduction the spec mandates for
`mod97Check` agrees with the big-integer modulo `int(numeric_iban) % 97`
that `validate_iban` performs, so the mod-97 test of `validate_iban` can
equivalently be phrased through `mod97Check`. -/
theorem mod97Check_eq_bigint_mod :
    (∀ ds : List Char, mod97Check ds = digitsToNat ds % 97) ∧
    (∀ s : List Char, ibanRegex s = true →
      (validate_iban s = true ↔ mod97Check (numericIban s) = 1)) := by
  have key : ∀ ds : List Char, mod97Check ds = digitsToNat ds % 97 := by
    intro ds
    exact mod97Check_foldl ds 0 (by omega)
  refine ⟨key, fun s hr => ?_⟩
  rw [key]
  unfold validate_iban
  rw [if_neg (ibanRegex_ne_nil hr), hr]
  simp

/-- Witness for C8 at the sample IBAN of the repository's tests. -/
theorem mod97Check_eq_bigint_mod_witness :
    mod97Check ("123456".toList) = digitsToNat ("123456".toList) % 97 ∧
    (validate_iban ("BE44001981860045".toList) = true ↔
      mod97Check (numericIban ("BE44001981860045".toList)) = 1) :=
  ⟨mod97Check_eq_bigint_mod.1 _,
   mod97Check_eq_bigint_mod.2 ("BE44001981860045".toList) (by decide)⟩

/-- C3: on sanitized IBAN strings, `validate_iban` rejects the empty string
and anything failing the structural pattern, and otherwise accepts exactly
when the rearranged letter-substituted digit string is ≡ 1 mod 97; the
known-valid `BE44001981860045` passes and the one-digit mutation
`BE44001981860046` fails. -/
theorem validate_iban_spec :
    (∀ s : List Char, sanitize_alphanum s = s →
      ((s = [] ∨ ibanRegex s = false) → validate_iban s = false) ∧
      (ibanRegex s = true →
        (validate_iban s = true ↔ digitsToNat (numericIban s) % 97 = 1))) ∧
    validate_iban ("BE44001981860045".toList) = true ∧
    validate_iban ("BE44001981860046".toList) = false := by
  refine ⟨fun s _ => ⟨fun h => ?_, fun hr => ?_⟩, by decide, by decide⟩
  · unfold validate_iban
    rcases h with h | h
    · rw [if_pos h]
    · split
      · rfl
      · rw [h]
        rfl
  · unfold validate_iban
    rw [if_neg (ibanRegex_ne_nil hr), hr]
    simp

/-- Witness for C3: a structurally malformed sanitized string is rejected,
and the accept condition is the mod-97 test at the sample IBAN. -/
theorem validate_iban_spec_witness :
    validate_iban ("BE44".toList) = false ∧
    (validate_iban ("BE44001981860045".toList) = true ↔
      digitsToNat (numericIban ("BE44001981860045".toList)) % 97 = 1) :=
  ⟨(validate_iban_spec.1 ("BE44".toList) (by decide)).1 (Or.inr (by decide)),
   (validate_iban_spec.1 ("BE44001981860045".toList) (by decide)).2 (by decide)⟩

theorem foldl_zeros (k : Nat) :
    (List.replicate k '0').foldl (fun a c => a * 10 + (c.toNat - 48)) 0 = 0 := by
  induction k with
  | zero => rfl
  | succ k ih => simpa [List.replicate_succ] using ih

theorem digitsToNat_zfill (k : Nat) (l : List Char) :
    digitsToNat (List.replicate k '0' ++ l) = digitsToNat l := by
  unfold digitsToNat
  rw [List.foldl_append, foldl_zeros]

theorem generate_ogm_eq (s : List Char) (r : Nat) (hs : s ≠ []) (b chk : List Char)
    (hb : b = (if 10 < (s.filter Char.isDigit).length then (s.filter Char.isDigit).take 10
               else zfillChars 10 (s.filter Char.isDigit)))
    (hchk : chk = zfillChars 2 (natChars
      (if digitsToNat b % 97 = 0 then 97 else digitsToNat b % 97)))
    (hblen : b.length = 10) (hchklen : chk.length = 2) :
    generate_belgian_ogm (some s) r = "+++".toList ++ b.take 3 ++ "/".toList
      ++ (b.drop 3).take 4 ++ "/".toList ++ (b.drop 7 ++ chk) ++ "+++".toList := by
  unfold generate_belgian_ogm
  simp only [if_neg hs]
  rw [← hb, ← hchk]
  have e₁ : (b ++ chk).take 3 = b.take 3 :=
    List.take_append_of_le_length (by omega)
  have e₂ : (b ++ chk).drop 3 = b.drop 3 ++ chk :=
    List.drop_append_of_le_length (by omega)
  have e₃ : (b.drop 3 ++ chk).take 4 = (b.drop 3).take 4 :=
    List.take_append_of_le_length (by rw [List.length_drop]; omega)
  have e₄ : (b ++ chk).drop 7 = b.drop 7 ++ chk :=
    List.drop_append_of_le_length (by omega)
  have e₅ : (b.drop 7 ++ chk).take 5 = b.drop 7 ++ chk :=
    List.take_of_length_le (by rw [List.length_append, List.length_drop]; omega)
  rw [e₁, e₂, e₃, e₄, e₅]

/-- C4 counterexample: the claim quantifies over every supplied base, but the
code treats a supplied empty base like a missing one (`if not base_num`) and
uses a random draw; for the admissible draw 1000000000 the output is not the
OGM the claim derives from the empty input's digit characters
(`+++000/0000/00097+++`). -/
theorem generate_belgian_ogm_cex :
    ogmRandomDraw 1000000000 ∧
    generate_belgian_ogm (some ("".toList)) 1000000000
      = generate_belgian_ogm none 1000000000 ∧
    generate_belgian_ogm (some ("".toList)) 1000000000
      ≠ "+++000/0000/00097+++".toList := by
  refine ⟨by decide, by decide, by decide⟩

/-- C4 (amended): for every supplied NON-EMPTY base input the generator
returns `+++DDD/DDDD/DDDDD+++` whose 12 digits are a 10-digit base (the
input's digit characters, truncated to the first 10 or left-padded with
zeros) followed by a 2-digit zero-padded check equal to base mod 97 with 0
replaced by 97; `generate_belgian_ogm("5337367152")` is
`+++533/7367/15261+++`.  (An empty supplied base falls into the random
branch, see the counterexample.) -/
theorem generate_belgian_ogm_spec :
    (∀ (s : List Char) (r : Nat), s ≠ [] →
      ∃ b chk : List Char,
        b = (if 10 < (s.filter Char.isDigit).length then (s.filter Char.isDigit).take 10
             else zfillChars 10 (s.filter Char.isDigit)) ∧
        b.length = 10 ∧ (∀ c ∈ b, c.isDigit = true) ∧
        chk.length = 2 ∧ (∀ c ∈ chk, c.isDigit = true) ∧
        digitsToNat chk = (if digitsToNat b % 97 = 0 then 97 else digitsToNat b % 97) ∧
        generate_belgian_ogm (some s) r = "+++".toList ++ b.take 3 ++ "/".toList
          ++ (b.drop 3).take 4 ++ "/".toList ++ (b.drop 7 ++ chk) ++ "+++".toList) ∧
    generate_belgian_ogm (some ("5337367152".toList)) 0 = "+++533/7367/15261+++".toList := by
  refine ⟨fun s r hs => ?_, by decide⟩
  obtain ⟨b, hb⟩ : ∃ b, b = (if 10 < (s.filter Char.isDigit).length
      then (s.filter Char.isDigit).take 10
      else zfillChars 10 (s.filter Char.isDigit)) := ⟨_, rfl⟩
  obtain ⟨m', hm⟩ : ∃ m', m' = (if digitsToNat b % 97 = 0 then 97
      else digitsToNat b % 97) := ⟨_, rfl⟩
  obtain ⟨chk, hchk⟩ : ∃ chk, chk = zfillChars 2 (natChars m') := ⟨_, rfl⟩
  have hblen : b.length = 10 := by
    rw [hb]
    split
    · rename_i h
      rw [List.length_take]
      omega
    · rename_i h
      unfold zfillChars
      rw [List.length_append, List.length_replicate]
      omega
  have hbdig : ∀ c ∈ b, c.isDigit = true := by
    rw [hb]
    intro c hc
    split at hc
    · exact (List.mem_filter.mp (List.take_subset 10 _ hc)).2
    · unfold zfillChars at hc
      rcases List.mem_append.mp hc with h' | h'
      · rw [List.eq_of_mem_replicate h']
        decide
      · exact (List.mem_filter.mp h').2
  have hm1 : 1 ≤ m' := by
    rw [hm]
    split <;> omega
  have hm97 : m' ≤ 97 := by
    have hlt := Nat.mod_lt (digitsToNat b) (show 0 < 97 by omega)
    rw [hm]
    split <;> omega
  have e0 : (10 : Nat) ^ 0 = 1 := by norm_num
  have e1 : (10 : Nat) ^ 1 = 10 := by norm_num
  have e2 : (10 : Nat) ^ 2 = 100 := by norm_num
  have hchklen : chk.length = 2 := by
    rw [hchk]
    unfold zfillChars
    rw [List.length_append, List.length_replicate]
    by_cases h10 : m' < 10
    · rw [natChars_length 0 m' (by omega) (by omega)]
    · rw [natChars_length 1 m' (by omega) (by omega)]
  have hchkdig : ∀ c ∈ chk, c.isDigit = true := by
    rw [hchk]
    intro c hc
    unfold zfillChars at hc
    rcases List.mem_append.mp hc with h' | h'
    · rw [List.eq_of_mem_replicate h']
      decide
    · exact natChars_isDigit _ c h'
  have hchkval : digitsToNat chk = m' := by
    rw [hchk]
    unfold zfillChars
    rw [digitsToNat_zfill, digitsToNat_natChars]
  refine ⟨b, chk, hb, hblen, hbdig, hchklen, hchkdig, by rw [hchkval, hm], ?_⟩
  exact generate_ogm_eq s r hs b chk hb (by rw [hchk, hm]) hblen hchklen

/-- Witness for C4 at the worked example base. -/
theorem generate_belgian_ogm_spec_witness :
    ∃ b chk : List Char,
      b = (if 10 < (("5337367152".toList).filter Char.isDigit).length
           then (("5337367152".toList).filter Char.isDigit).take 10
           else zfillChars 10 (("5337367152".toList).filter Char.isDigit)) ∧
      b.length = 10 ∧ (∀ c ∈ b, c.isDigit = true) ∧
      chk.length = 2 ∧ (∀ c ∈ chk, c.isDigit = true) ∧
      digitsToNat chk = (if digitsToNat b % 97 = 0 then 97 else digitsToNat b % 97) ∧
      generate_belgian_ogm (some ("5337367152".toList)) 0 = "+++".toList ++ b.take 3
        ++ "/".toList ++ (b.drop 3).take 4 ++ "/".toList ++ (b.drop 7 ++ chk)
        ++ "+++".toList :=
  generate_belgian_ogm_spec.1 ("5337367152".toList) 0 (by decide)

/-- C7 counterexample: the spec claims the random 10-digit base ranges over
all of [0, 10^10 − 1]; but `random.randint(1000000000, 9999999999)` can never
draw a value below 10^9, e.g. 5. -/
theorem ogmRandomDraw_cex : 5 < 10 ^ 10 ∧ ¬ ogmRandomDraw 5 := by
  constructor
  · norm_num
  · decide

/-- C7 (amended): when no base is supplied the random base is drawn from
[10^9, 10^10 − 1] — always a 10-digit number with a nonzero leading digit;
values below 10^9 are impossible. -/
theorem ogmRandomDraw_spec :
    (∀ r : Nat, ogmRandomDraw r ↔ 10 ^ 9 ≤ r ∧ r < 10 ^ 10) ∧
    (∀ r : Nat, ogmRandomDraw r → (natChars r).length = 10) := by
  constructor
  · intro r
    have e9 : (10 : Nat) ^ 9 = 1000000000 := by norm_num
    have e10 : (10 : Nat) ^ 10 = 10000000000 := by norm_num
    unfold ogmRandomDraw
    omega
  · intro r h
    have h1 : 1000000000 ≤ r := h.1
    have h2 : r ≤ 9999999999 := h.2
    have e9 : (10 : Nat) ^ 9 = 1000000000 := by norm_num
    have e10 : (10 : Nat) ^ 10 = 10000000000 := by norm_num
    exact natChars_length 9 r (by omega) (by omega)

/-- Witness for C7 at the draw 5337367152. -/
theorem ogmRandomDraw_spec_witness :
    ogmRandomDraw 5337367152 ∧ (natChars 5337367152).length = 10 :=
  ⟨(ogmRandomDraw_spec.1 5337367152).mpr (by norm_num),
   ogmRandomDraw_spec.2 5337367152 (by decide)⟩

/-- C2: `get_qr_string` raises a `ValidationError` iff, after unconditional
sanitization, the beneficiary name is empty, or both remittance text and
creditor reference are non-empty, or the creditor reference is non-empty and
does not start with `RF` — the checks made in that order — and in every
other case it returns a string. -/
theorem get_qr_string_error_spec :
    ∀ p : Payment,
      ((∃ e, get_qr_string p = .error e) ↔
        (sanitize_text p.beneficiary_name 70 = [] ∨
         (sanitize_text p.remittance_text 140 ≠ [] ∧
           sanitize_alphanum p.creditor_reference ≠ []) ∨
         (sanitize_alphanum p.creditor_reference ≠ [] ∧
           ¬ ("RF".toList.isPrefixOf (sanitize_alphanum p.creditor_reference))))) ∧
      (sanitize_text p.beneficiary_name 70 = [] →
        get_qr_string p = .error .beneficiaryNameRequired) ∧
      (sanitize_text p.beneficiary_name 70 ≠ [] →
        sanitize_text p.remittance_text 140 ≠ [] →
        sanitize_alphanum p.creditor_reference ≠ [] →
        get_qr_string p = .error .bothReferenceAndRemittance) ∧
      (sanitize_text p.beneficiary_name 70 ≠ [] →
        ¬ (sanitize_text p.remittance_text 140 ≠ [] ∧
            sanitize_alphanum p.creditor_reference ≠ []) →
        sanitize_alphanum p.creditor_reference ≠ [] →
        ¬ ("RF".toList.isPrefixOf (sanitize_alphanum p.creditor_reference)) →
        get_qr_string p = .error .creditorRefNotRF) ∧
      ((sanitize_text p.beneficiary_name 70 ≠ [] ∧
        ¬ (sanitize_text p.remittance_text 140 ≠ [] ∧
            sanitize_alphanum p.creditor_reference ≠ []) ∧
        ¬ (sanitize_alphanum p.creditor_reference ≠ [] ∧
            ¬ "RF".toList.isPrefixOf (sanitize_alphanum p.creditor_reference))) →
        ∃ out, get_qr_string p = .ok out) := by
  intro p
  by_cases h₁ : sanitize_text p.beneficiary_name 70 = []
  · have hE : get_qr_string p = .error .beneficiaryNameRequired := by
      simp only [get_qr_string]
      rw [if_pos h₁]
    exact ⟨⟨fun _ => Or.inl h₁, fun _ => ⟨_, hE⟩⟩, fun _ => hE,
      fun hn _ _ => absurd h₁ hn, fun hn _ _ _ => absurd h₁ hn,
      fun h => absurd h₁ h.1⟩
  · by_cases h₂ : sanitize_text p.remittance_text 140 ≠ [] ∧
      sanitize_alphanum p.creditor_reference ≠ []
    · have hE : get_qr_string p = .error .bothReferenceAndRemittance := by
        simp only [get_qr_string]
        rw [if_neg h₁, if_pos h₂]
      exact ⟨⟨fun _ => Or.inr (Or.inl h₂), fun _ => ⟨_, hE⟩⟩,
        fun h => absurd h h₁, fun _ _ _ => hE,
        fun _ hno _ _ => absurd h₂ hno, fun h => absurd h₂ h.2.1⟩
    · by_cases h₃ : sanitize_alphanum p.creditor_reference ≠ [] ∧
        ¬ ("RF".toList.isPrefixOf (sanitize_alphanum p.creditor_reference))
      · have hE : get_qr_string p = .error .creditorRefNotRF := by
          simp only [get_qr_string]
          rw [if_neg h₁, if_neg h₂, if_pos h₃]
        exact ⟨⟨fun _ => Or.inr (Or.inr h₃), fun _ => ⟨_, hE⟩⟩,
          fun h => absurd h h₁, fun _ h₂' h₃' => absurd ⟨h₂', h₃'⟩ h₂,
          fun _ _ _ _ => hE, fun h => absurd h₃ h.2.2⟩
      · have hOk : ∃ out, get_qr_string p = .ok out := by
          simp only [get_qr_string]
          rw [if_neg h₁, if_neg h₂, if_neg h₃]
          exact ⟨_, rfl⟩
        obtain ⟨out, ho⟩ := hOk
        refine ⟨⟨?_, ?_⟩, fun h => absurd h h₁,
          fun _ h₂' h₃' => absurd ⟨h₂', h₃'⟩ h₂,
          fun _ _ hc hrf => absurd ⟨hc, hrf⟩ h₃, fun _ => ⟨out, ho⟩⟩
        · intro h
          obtain ⟨e, he⟩ := h
          rw [ho] at he
          exact Except.noConfusion he
        · intro hd
          exfalso
          rcases hd with hd | hd | hd
          exacts [h₁ hd, h₂ hd, h₃ hd]

/-- Witness for C2 at the mutual-exclusivity test payload. -/
theorem get_qr_string_error_spec_witness :
    get_qr_string bothRefsPayload = .error .bothReferenceAndRemittance :=
  (get_qr_string_error_spec bothRefsPayload).2.2.1 (by decide) (by decide) (by decide)

/-- C9: the state-passing embedding of the `get_qr_string` method leaves the
payload's stored fields (iban, bic, beneficiary_name, amount, currency,
purpose, remittance_text, creditor_reference, information, version,
char_set) unchanged — it binds only locals — and its result is the pure
serialization, whether that is a string or a `ValidationError`. -/
theorem get_qr_string_frame :
    ∀ p : Payment, (get_qr_stringS.run p).2 = p ∧
      (get_qr_stringS.run p).1 = get_qr_string p :=
  fun _ => ⟨rfl, rfl⟩

/-- C10: a strictly negative stored amount is serialized exactly like a zero
amount: the Amount field is empty and no error is raised on its account. -/
theorem get_qr_string_negative_amount :
    ∀ p : Payment, p.amount < 0 →
      amountStr p = [] ∧ get_qr_string p = get_qr_string { p with amount := 0 } := by
  intro p h
  have hn : ¬ 0 < p.amount := by omega
  have hz : ¬ (0 : Int) < 0 := by omega
  constructor
  · unfold amountStr
    rw [if_neg hn]
  · simp only [get_qr_string, amountStr, if_neg hn, if_neg hz]

/-- C1 counterexample: `newlinePayload` satisfies the claim's premises, yet
the serialized string splits into 13 fields, and field 1 is `007`, not
`002` — interior newlines survive sanitization and `version`/`char_set` are
ordinary mutable attributes. -/
theorem get_qr_string_structure_cex :
    sanitize_text newlinePayload.beneficiary_name 70 ≠ [] ∧
    ¬ (sanitize_text newlinePayload.remittance_text 140 ≠ [] ∧
        sanitize_alphanum newlinePayload.creditor_reference ≠ []) ∧
    sanitize_alphanum newlinePayload.creditor_reference = [] ∧
    ((get_qr_string newlinePayload).toOption).map
        (fun out => ((splitNl out).length, (splitNl out)[1]?))
      = some (13, some ("007".toList)) ∧
    ("007".toList ≠ "002".toList) := by
  refine ⟨by decide, by decide, by decide, by decide, by decide⟩

/-- C1 (amended): under the claim's premises AND the further hypotheses that
`version` and `char_set` still hold their constructor values `002` and `1`
(the program never reassigns them) and that none of the serialized free-text
fields (sanitized name, purpose, currency, sanitized remittance, sanitized
information) contains the line separator, `get_qr_string` returns a string
splitting into exactly the 12 fields in the fixed order, with fields 0–3
`BCD`, `002`, `1`, `SCT`, and the Amount field is the currency followed by
the 2-decimal amount when the amount is positive, else empty. -/
theorem get_qr_string_structure :
    ∀ p : Payment,
      sanitize_text p.beneficiary_name 70 ≠ [] →
      ¬ (sanitize_text p.remittance_text 140 ≠ [] ∧
          sanitize_alphanum p.creditor_reference ≠ []) →
      ¬ (sanitize_alphanum p.creditor_reference ≠ [] ∧
          ¬ "RF".toList.isPrefixOf (sanitize_alphanum p.creditor_reference)) →
      p.version = "002".toList → p.char_set = "1".toList →
      '\n' ∉ sanitize_text p.beneficiary_name 70 →
      '\n' ∉ p.purpose → '\n' ∉ p.currency →
      '\n' ∉ sanitize_text p.remittance_text 140 →
      '\n' ∉ sanitize_text p.information 70 →
      ∃ out, get_qr_string p = .ok out ∧
        splitNl out = ["BCD".toList, "002".toList, "1".toList, "SCT".toList,
          sanitize_alphanum p.bic, sanitize_text p.beneficiary_name 70,
          sanitize_alphanum p.iban, amountStr p, p.purpose,
          sanitize_alphanum p.creditor_reference, sanitize_text p.remittance_text 140,
          sanitize_text p.information 70] ∧
        (0 < p.amount → amountStr p = p.currency ++ fmt2dec p.amount) ∧
        (¬ 0 < p.amount → amountStr p = []) := by
  intro p h₁ h₂ h₃ hv hc hn₁ hn₂ hn₃ hn₄ hn₅
  have hE : get_qr_string p = .ok (joinNl ["BCD".toList, p.version, p.char_set,
      "SCT".toList, sanitize_alphanum p.bic, sanitize_text p.beneficiary_name 70,
      sanitize_alphanum p.iban, amountStr p, p.purpose,
      sanitize_alphanum p.creditor_reference, sanitize_text p.remittance_text 140,
      sanitize_text p.information 70]) := by
    simp only [get_qr_string]
    rw [if_neg h₁, if_neg h₂, if_neg h₃]
  refine ⟨_, hE, ?_, fun h => by unfold amountStr; rw [if_pos h],
    fun h => by unfold amountStr; rw [if_neg h]⟩
  rw [hv, hc]
  apply splitNl_joinNl _ (by simp)
  intro l hl
  simp only [List.mem_cons, List.not_mem_nil, or_false] at hl
  rcases hl with rfl | rfl | rfl | rfl | rfl | rfl | rfl | rfl | rfl | rfl | rfl | rfl
  · decide
  · decide
  · decide
  · decide
  · exact sanitize_alphanum_no_newline _
  · exact hn₁
  · exact sanitize_alphanum_no_newline _
  · exact amountStr_no_newline hn₃
  · exact hn₂
  · exact sanitize_alphanum_no_newline _
  · exact hn₄
  · exact hn₅

/-- Witness for C1 at the structure-test payload. -/
theorem get_qr_string_structure_witness :
    ∃ out, get_qr_string structurePayload = .ok out ∧
      splitNl out = ["BCD".toList, "002".toList, "1".toList, "SCT".toList,
        sanitize_alphanum structurePayload.bic,
        sanitize_text structurePayload.beneficiary_name 70,
        sanitize_alphanum structurePayload.iban, amountStr structurePayload,
        structurePayload.purpose, sanitize_alphanum structurePayload.creditor_reference,
        sanitize_text structurePayload.remittance_text 140,
        sanitize_text structurePayload.information 70] ∧
      (0 < structurePayload.amount →
        amountStr structurePayload = structurePayload.currency ++ fmt2dec structurePayload.amount) ∧
      (¬ 0 < structurePayload.amount → amountStr structurePayload = []) :=
  get_qr_string_structure structurePayload (by decide) (by decide) (by decide)
    (by decide) (by decide) (by decide) (by decide) (by decide) (by decide) (by decide)

theorem elevenWarn_notMem_checkFieldBody (lines : List (List Char)) (i : Nat)
    (nm value : List Char) : Diag.elevenLineWarn ∉ (checkFieldBody lines i nm value).1 := by
  simp only [checkFieldBody]
  split
  · simp
  · intro h
    rcases List.mem_append.mp h with h | h
    · rcases List.mem_append.mp h with h | h
      · rcases List.mem_append.mp h with h | h
        · split at h <;> simp at h
        · split at h <;> simp at h
      · split at h <;> simp at h
    · simp at h

theorem elevenWarn_notMem_checkField (lines : List (List Char)) (i : Nat)
    (nm : List Char) (e : Option (List Char)) :
    Diag.elevenLineWarn ∉ (checkField lines i nm e).1 := by
  cases e with
  | none =>
    simp only [checkField]
    exact elevenWarn_notMem_checkFieldBody lines i nm _
  | some ex =>
    simp only [checkField]
    split
    · simp
    · exact elevenWarn_notMem_checkFieldBody lines i nm _

theorem elevenWarn_notMem_fieldLoop (lines : List (List Char)) :
    ∀ (entries : List (List Char × Option (List Char))) (j : Nat),
      Diag.elevenLineWarn ∉ (fieldLoop lines j entries).1 := by
  intro entries
  induction entries with
  | nil => intro j; simp [fieldLoop]
  | cons hd tl ih =>
    intro j
    obtain ⟨nm, e⟩ := hd
    simp only [fieldLoop]
    intro h
    rcases List.mem_append.mp h with h | h
    · exact elevenWarn_notMem_checkField lines j nm e h
    · exact ih (j + 1) h

/-- C5: `validate_qr_string` splits on the separator preserving empty lines;
an 11-line split is fixed up by appending one empty line with a recorded
warning; trailing empty lines beyond 12 are dropped (only empty ones, never
below 12 lines, stopping at 12 or at a non-empty last line); and any other
count fails immediately with a diagnostic carrying the count and the line
sequence, with no field-level checks performed. -/
theorem validate_qr_string_linecount :
    ∀ s : List Char,
      ((splitNl s).length = 11 →
        normalizeLines s = splitNl s ++ [[]] ∧
        Diag.elevenLineWarn ∈ (validate_qr_string s).2) ∧
      ((splitNl s).length ≠ 11 → Diag.elevenLineWarn ∉ (validate_qr_string s).2) ∧
      ((elevenFix (splitNl s)).length ≤ 12 → normalizeLines s = elevenFix (splitNl s)) ∧
      (12 < (elevenFix (splitNl s)).length →
        (∃ k, elevenFix (splitNl s) = normalizeLines s ++ List.replicate k ([] : List Char)) ∧
        12 ≤ (normalizeLines s).length ∧
        ((normalizeLines s).length = 12 ∨ (normalizeLines s).getLast? ≠ some [])) ∧
      ((normalizeLines s).length ≠ 12 →
        validate_qr_string s =
          (false, (if (splitNl s).length = 11 then [Diag.elevenLineWarn] else [])
            ++ [Diag.countFail (normalizeLines s).length (normalizeLines s)])) := by
  intro s
  refine ⟨fun h11 => ⟨?_, ?_⟩, fun h11 => ?_, fun hle => ?_,
    fun hgt => ⟨?_, ?_, ?_⟩, fun hne => ?_⟩
  · unfold normalizeLines elevenFix
    rw [if_pos h11]
    exact popExtra_of_le_12 (by simp [h11])
  · simp only [validate_qr_string]
    split <;> simp [h11]
  · simp only [validate_qr_string]
    split
    · simp
    · intro h
      simp only [List.nil_append] at h
      rcases List.mem_append.mp h with h | h
      · simp at h
      · exact elevenWarn_notMem_fieldLoop _ schema 0 h
  · unfold normalizeLines
    exact popExtra_of_le_12 hle
  · unfold normalizeLines
    exact popExtra_decomp _
  · unfold normalizeLines
    exact popExtra_length_ge _ (by omega)
  · have hstop := popExtra_stop (elevenFix (splitNl s))
    have hge : 12 ≤ (popExtra (elevenFix (splitNl s))).length :=
      popExtra_length_ge _ (by omega)
    unfold normalizeLines
    by_cases h12 : (popExtra (elevenFix (splitNl s))).length = 12
    · exact Or.inl h12
    · exact Or.inr fun hlast => hstop ⟨by omega, hlast⟩
  · simp only [validate_qr_string]
    rw [if_pos hne]

/-- Witness for C5 at the 11-line sample payload and at a 2-line input. -/
theorem validate_qr_string_linecount_witness :
    (normalizeLines elevenSample = splitNl elevenSample ++ [[]] ∧
      Diag.elevenLineWarn ∈ (validate_qr_string elevenSample).2) ∧
    validate_qr_string ("BCD\n002".toList) =
      (false, (if (splitNl ("BCD\n002".toList)).length = 11 then [Diag.elevenLineWarn] else [])
        ++ [Diag.countFail (normalizeLines ("BCD\n002".toList)).length
              (normalizeLines ("BCD\n002".toList))]) :=
  ⟨(validate_qr_string_linecount elevenSample).1 (by decide),
   (validate_qr_string_linecount ("BCD\n002".toList)).2.2.2.2 (by decide)⟩

theorem fieldTrace_mem_checkFieldBody (lines : List (List Char)) (i : Nat)
    (nm value : List Char)
    (hmand : ¬ ((nm = "Beneficiary Name".toList ∨ nm = "IBAN".toList) ∧ value = [])) :
    Diag.fieldTrace i (if value = [] then "[Empty]".toList else value)
      ∈ (checkFieldBody lines i nm value).1 := by
  simp only [checkFieldBody]
  rw [if_neg hmand]
  simp

theorem fieldTrace_mem_checkField (lines : List (List Char)) (i : Nat) (nm : List Char)
    (e : Option (List Char))
    (hhead : ∀ ex, e = some ex → pyStrip (lines.getD i []) = ex)
    (hmand : ¬ ((nm = "Beneficiary Name".toList ∨ nm = "IBAN".toList) ∧
        pyStrip (lines.getD i []) = [])) :
    Diag.fieldTrace i (if pyStrip (lines.getD i []) = [] then "[Empty]".toList
      else pyStrip (lines.getD i [])) ∈ (checkField lines i nm e).1 := by
  cases e with
  | none =>
    simp only [checkField]
    exact fieldTrace_mem_checkFieldBody lines i nm _ hmand
  | some ex =>
    simp only [checkField]
    rw [if_neg (fun hne => hne (hhead ex rfl))]
    exact fieldTrace_mem_checkFieldBody lines i nm _ hmand

theorem mem_fieldLoop (lines : List (List Char)) (d : Diag) :
    ∀ (entries : List (List Char × Option (List Char))) (j k : Nat) (nm : List Char)
      (e : Option (List Char)), entries[k]? = some (nm, e) →
      d ∈ (checkField lines (j + k) nm e).1 → d ∈ (fieldLoop lines j entries).1 := by
  intro entries
  induction entries with
  | nil =>
    intro j k nm e hk
    simp at hk
  | cons hd tl ih =>
    intro j k nm e hk hmem
    obtain ⟨nm', e'⟩ := hd
    cases k with
    | zero =>
      simp only [List.getElem?_cons_zero, Option.some.injEq, Prod.mk.injEq] at hk
      obtain ⟨rfl, rfl⟩ := hk
      simp only [fieldLoop]
      refine List.mem_append.mpr (Or.inl ?_)
      simpa using hmem
    | succ k =>
      simp only [List.getElem?_cons_succ] at hk
      simp only [fieldLoop]
      refine List.mem_append.mpr (Or.inr ?_)
      refine ih (j + 1) k nm e hk ?_
      have hidx : j + 1 + k = j + (k + 1) := by omega
      rw [hidx]
      exact hmem

/-- C6 counterexample: on a 12-line input whose Service Tag is `XXX`, field 0
records its header failure and then `continue`s, so it produces NO
informational trace line, while field 1 does. -/
theorem validate_qr_string_field_traces_cex :
    (normalizeLines badHeaderSample).length = 12 ∧
    Diag.headerFail 0 ("BCD".toList) ("XXX".toList) ∈ (validate_qr_string badHeaderSample).2 ∧
    hasTrace 0 (validate_qr_string badHeaderSample).2 = false ∧
    hasTrace 1 (validate_qr_string badHeaderSample).2 = true := by
  refine ⟨by decide, by decide, by decide, by decide⟩

/-- C6 (amended): during the field phase, every field that passes its
header-constant check (or has none) and is not an empty mandatory
Beneficiary-Name/IBAN field produces an informational trace line with its
trimmed value, `[Empty]` marking an empty value.  (A field that fails one of
those two checks `continue`s and produces no trace, see the
counterexample.) -/
theorem validate_qr_string_field_traces :
    ∀ (s : List Char) (i : Nat) (nm : List Char) (e : Option (List Char)),
      (normalizeLines s).length = 12 →
      schema[i]? = some (nm, e) →
      (∀ ex, e = some ex → pyStrip ((normalizeLines s).getD i []) = ex) →
      ¬ ((nm = "Beneficiary Name".toList ∨ nm = "IBAN".toList) ∧
          pyStrip ((normalizeLines s).getD i []) = []) →
      Diag.fieldTrace i (if pyStrip ((normalizeLines s).getD i []) = []
        then "[Empty]".toList else pyStrip ((normalizeLines s).getD i []))
        ∈ (validate_qr_string s).2 := by
  intro s i nm e h12 hs hhead hmand
  have hck := fieldTrace_mem_checkField (normalizeLines s) i nm e hhead hmand
  have hmem : Diag.fieldTrace i (if pyStrip ((normalizeLines s).getD i []) = []
      then "[Empty]".toList else pyStrip ((normalizeLines s).getD i []))
      ∈ (fieldPhase (normalizeLines s)).1 := by
    unfold fieldPhase
    exact mem_fieldLoop (normalizeLines s) _ schema 0 i nm e hs (by simpa using hck)
  simp only [validate_qr_string]
  rw [if_neg (show ¬ (normalizeLines s).length ≠ 12 from fun hh => hh h12)]
  exact List.mem_append.mpr (Or.inr hmem)

/-- Witness for C6 at the BIC field of the 11-line sample payload. -/
theorem validate_qr_string_field_traces_witness :
    Diag.fieldTrace 4 (if pyStrip ((normalizeLines elevenSample).getD 4 []) = []
      then "[Empty]".toList else pyStrip ((normalizeLines elevenSample).getD 4 []))
      ∈ (validate_qr_string elevenSample).2 :=
  validate_qr_string_field_traces elevenSample 4 ("BIC".toList) none
    (by decide) (by decide) (fun ex h => Option.noConfusion h) (by decide)

/-- Witness for C10 at a payload whose amount is −5.00. -/
theorem get_qr_string_negative_amount_witness :
    amountStr negAmountPayload = [] ∧
      get_qr_string negAmountPayload = get_qr_string { negAmountPayload with amount := 0 } :=
  get_qr_string_negative_amount negAmountPayload (by decide)
